import Mathlib

/-!
Shallow embedding of the force-directed layout engine of `beads_viewer`
(`pkg/export` force layout: `ComputeForceLayout` and its helpers), together
with theorems checking the repository's specification against it.

Conventions of the embedding:
* Go `float64` arithmetic is idealised as exact rational arithmetic (`ℚ`);
  `math.MaxFloat64` is the exact rational value of that constant.
* `math.Sqrt` is an external library primitive; it is modelled by a
  computable rational Newton approximation `ratSqrt` (the theorems below
  depend on its values only at `0`, where it is exact).
* Go's `math/rand` generator is an external library; per the spec it is a
  deterministic pseudo-random source with a fixed seed, modelled here by an
  explicit linear congruential generator threaded through node creation.
* Go maps with `string` keys are modelled as association lists; a lookup of
  an absent key yields `0`, as Go's map read does for `float64` values.
-/

/-- Status of an issue (model package, closed enumeration per spec §3). -/
inductive Status where
  | open_
  | inProgress
  | blocked
  | closed
deriving DecidableEq, Repr

/-- Kind of a dependency edge (model package, closed enumeration per spec §3). -/
inductive DependencyType where
  | blocks
  | related
deriving DecidableEq, Repr

/-- Dependency edge owned by an issue; Go field `DependsOnID` and `Type`
(the latter is spelled `Ty` here because `Type` is reserved in Lean). -/
structure Dependency where
  DependsOnID : String
  Ty : DependencyType
deriving DecidableEq, Repr

/-- Issue record (model package); only the fields read by the layout engine
are embedded. Go stores dependencies as a slice of pointers, so an entry may
be `nil`: it is modelled as `Option Dependency`. -/
structure Issue where
  ID : String
  Title : String
  IStatus : Status
  Priority : Int
  Dependencies : List (Option Dependency)
deriving DecidableEq, Repr

/-- Centrality results consumed by the layout (`analysis.GraphStats`). The
analysis package is outside the embedded sources; per spec §3 its
`PageRank()` and `Betweenness()` methods return maps from issue ID to score,
modelled as association lists. -/
structure GraphStats where
  pageRank : List (String × ℚ)
  betweenness : List (String × ℚ)
deriving DecidableEq, Repr

/-- ForceNode, a node of the force-directed layout (Go struct `ForceNode`). -/
structure ForceNode where
  ID : String
  Title : String
  NStatus : Status
  Priority : Int
  PageRank : ℚ
  X : ℚ
  Y : ℚ
  Vx : ℚ
  Vy : ℚ
  Radius : ℚ
deriving DecidableEq, Repr

/-- ForceEdge, an edge of the force layout (Go struct `ForceEdge`; the Go
field `Type` is spelled `Ty`). -/
structure ForceEdge where
  From : String
  To : String
  Ty : DependencyType
deriving DecidableEq, Repr

/-- ForceLayout, the computed layout (Go struct `ForceLayout`). -/
structure ForceLayout where
  Nodes : List ForceNode
  Edges : List ForceEdge
  Width : ℚ
  Height : ℚ
  CenterX : ℚ
  CenterY : ℚ
  MinX : ℚ
  MaxX : ℚ
  MinY : ℚ
  MaxY : ℚ
  Title : String
  DataHash : String
  TopNode : String
  TopNodeRank : ℚ
deriving DecidableEq, Repr

/-- ForceLayoutOptions (Go struct `ForceLayoutOptions`). `Iterations` is a Go
`int`, embedded as `Int`; the force parameters are `float64`, embedded as `ℚ`. -/
structure ForceLayoutOptions where
  Issues : List Issue
  Stats : GraphStats
  Title : String
  DataHash : String
  Iterations : Int
  RepelForce : ℚ
  AttractForce : ℚ
  Damping : ℚ
  MinNodeSize : ℚ
  MaxNodeSize : ℚ
deriving DecidableEq, Repr

/-- Exact rational value of Go's `math.MaxFloat64`. -/
def maxFloat64 : ℚ := (2 ^ 53 - 1) * 2 ^ 971

/-- Newton iteration for square roots, with fuel. -/
def sqrtIter (q : ℚ) : Nat → ℚ → ℚ
  | 0, x => x
  | n + 1, x => sqrtIter q n ((x + q / x) / 2)

/-- Model of the library primitive `math.Sqrt` as a computable rational
approximation; exact at `0` (and on non-positive inputs, which the layout
never produces). -/
def ratSqrt (q : ℚ) : ℚ := if q ≤ 0 then 0 else sqrtIter q 24 (max q 1)

/-- Model of Go's `math/rand` source: one step of a 64-bit linear
congruential generator. The library code is external to the repository; the
spec (§4.4, §9) only requires a deterministic stream from a fixed seed. -/
def rngNext (s : Nat) : Nat :=
  (6364136223846793005 * s + 1442695040888963407) % (2 ^ 64)

/-- Model of `rng.Float64()`: advance the state and produce a rational in
`[0, 1)` from the top 53 bits. -/
def rngFloat (s : Nat) : ℚ × Nat :=
  let t := rngNext s
  (((t / 2 ^ 11 : Nat) : ℚ) / (2 ^ 53 : ℚ), t)

/-- Association-list lookup with Go's zero-value default for `float64` maps. -/
def lookupQ (m : List (String × ℚ)) (k : String) : ℚ :=
  match m with
  | [] => 0
  | p :: t => if p.1 = k then p.2 else lookupQ t k

/-- Maximum of the values of a pagerank map, starting from `0`
(Go lines 87–92: `maxPR := 0.0; for _, pr := range pageRank { ... }`). -/
def maxVals (m : List (String × ℚ)) : ℚ :=
  m.foldl (fun a p => if p.2 > a then p.2 else a) 0

/-- Defaulting of zero/unset options (Go lines 62–80). -/
def setDefaults (o : ForceLayoutOptions) : ForceLayoutOptions :=
  { o with
    Iterations := if o.Iterations = 0 then 300 else o.Iterations,
    RepelForce := if o.RepelForce = 0 then 8000 else o.RepelForce,
    AttractForce := if o.AttractForce = 0 then 3 / 200 else o.AttractForce,
    Damping := if o.Damping = 0 then 17 / 20 else o.Damping,
    MinNodeSize := if o.MinNodeSize = 0 then 24 else o.MinNodeSize,
    MaxNodeSize := if o.MaxNodeSize = 0 then 60 else o.MaxNodeSize }

/-- Canvas side length (Go line 99: `math.Max(800, math.Sqrt(nodeCount)*200)`). -/
def canvasSizeOf (n : Nat) : ℚ := max 800 (ratSqrt (n : ℚ) * 200)

/-- Node construction with pseudo-random initial positions (Go lines
101–132), threading the generator state; two draws per node (X then Y). -/
def mkNodes (canvas minS maxS maxPR : ℚ) (pr bet : String → ℚ) :
    List Issue → Nat → List ForceNode
  | [], _ => []
  | iss :: rest, s =>
    let r1 := rngFloat s
    let r2 := rngFloat r1.2
    let importance := pr iss.ID / maxPR * (7 / 10) + bet iss.ID * (3 / 10)
    { ID := iss.ID, Title := iss.Title, NStatus := iss.IStatus,
      Priority := iss.Priority, PageRank := pr iss.ID,
      X := canvas / 2 + (r1.1 - 1 / 2) * canvas * (4 / 5),
      Y := canvas / 2 + (r2.1 - 1 / 2) * canvas * (4 / 5),
      Vx := 0, Vy := 0,
      Radius := minS + importance * (maxS - minS) } ::
      mkNodes canvas minS maxS maxPR pr bet rest r2.2

/-- Running maximum-pagerank tracking interleaved with node creation in Go
(lines 106–114): keeps the first issue whose rank strictly exceeds the
running maximum, starting from `("", 0)`. -/
def topFold (pr : String → ℚ) (issues : List Issue) : String × ℚ :=
  issues.foldl
    (fun acc iss => if pr iss.ID > acc.2 then (iss.ID, pr iss.ID) else acc)
    ("", 0)

/-- Edge produced by one dependency entry (Go lines 141–150): a nil entry
or a dangling target yields nothing, otherwise one typed edge. -/
def depEdge (ids : List String) (iid : String) : Option Dependency → Option ForceEdge
  | none => none
  | some dep =>
    if dep.DependsOnID ∈ ids then some ⟨iid, dep.DependsOnID, dep.Ty⟩
    else none

/-- Edge construction (Go lines 134–151): every non-nil dependency whose
target ID occurs in the snapshot yields one edge, in order; no
deduplication. -/
def buildEdges (issues : List Issue) : List ForceEdge :=
  let ids := issues.map Issue.ID
  issues.flatMap (fun iss => iss.Dependencies.filterMap (depEdge ids iss.ID))

/-- Index of the last node with the given ID, mirroring Go's `nodeMap`
(line 131 overwrites the entry on duplicate IDs, and the backing array is
never reallocated, so the pointer denotes the last occurrence). -/
def lastIdxOf (ns : List ForceNode) (id : String) : Option Nat :=
  match ns with
  | [] => none
  | n :: t =>
    match lastIdxOf t id with
    | some k => some (k + 1)
    | none => if n.ID = id then some 0 else none

/-- Pointwise update of one list position. -/
def modifyIdx (ns : List ForceNode) (i : Nat) (f : ForceNode → ForceNode) :
    List ForceNode :=
  match ns, i with
  | [], _ => []
  | n :: t, 0 => f n :: t
  | n :: t, k + 1 => n :: modifyIdx t k f

/-- Repulsive velocity accumulated on one node against all others (Go lines
169–186); the reset of lines 164–167 is reflected by starting from `(0, 0)`. -/
def repelVel (R : ℚ) (ns : List ForceNode) (i : Nat) (n : ForceNode) : ℚ × ℚ :=
  ns.enum.foldl
    (fun acc p =>
      if p.1 = i then acc
      else
        let dx := n.X - p.2.X
        let dy := n.Y - p.2.Y
        let d0 := ratSqrt (dx * dx + dy * dy)
        let dist := if d0 < 1 then 1 else d0
        let force := R / (dist * dist)
        (acc.1 + dx / dist * force, acc.2 + dy / dist * force))
    (0, 0)

/-- Repulsion phase: every node's velocity is overwritten with the summed
pairwise repulsion; positions are read from the unmodified list, exactly as
in Go where positions are not written during this phase. -/
def repelAll (R : ℚ) (ns : List ForceNode) : List ForceNode :=
  ns.enum.map (fun p =>
    let v := repelVel R ns p.1 p.2
    { p.2 with Vx := v.1, Vy := v.2 })

/-- Attraction applied for one edge (Go lines 189–211): look the endpoints
up through the node map, compute the spring force from their positions, then
update the two velocities sequentially. -/
def attractStep (A : ℚ) (ns : List ForceNode) (e : ForceEdge) : List ForceNode :=
  match lastIdxOf ns e.From, lastIdxOf ns e.To with
  | some i, some j =>
    match ns[i]?, ns[j]? with
    | some n1, some n2 =>
      let dx := n2.X - n1.X
      let dy := n2.Y - n1.Y
      let d0 := ratSqrt (dx * dx + dy * dy)
      let dist := if d0 < 1 then 1 else d0
      let force := dist * A
      let fx := dx / dist * force
      let fy := dy / dist * force
      let ns1 := modifyIdx ns i
        (fun n => { n with Vx := n.Vx + fx, Vy := n.Vy + fy })
      modifyIdx ns1 j
        (fun n => { n with Vx := n.Vx - fx, Vy := n.Vy - fy })
    | _, _ => ns
  | _, _ => ns

/-- Movement phase (Go lines 214–229): clamp displacement to the current
temperature, damp, and move. -/
def moveAll (damping temp : ℚ) (ns : List ForceNode) : List ForceNode :=
  ns.map (fun n =>
    let disp := ratSqrt (n.Vx * n.Vx + n.Vy * n.Vy)
    let vx0 := if disp > temp then n.Vx / disp * temp else n.Vx
    let vy0 := if disp > temp then n.Vy / disp * temp else n.Vy
    let vx := vx0 * damping
    let vy := vy0 * damping
    { n with Vx := vx, Vy := vy, X := n.X + vx, Y := n.Y + vy })

/-- One simulation iteration (Go lines 162–233): repulsion over all ordered
pairs, attraction over the edge list, movement, then geometric cooling of
the temperature by `0.97`. -/
def simStep (R A damping : ℚ) (edges : List ForceEdge)
    (st : List ForceNode × ℚ) : List ForceNode × ℚ :=
  let ns1 := repelAll R st.1
  let ns2 := edges.foldl (attractStep A) ns1
  let ns3 := moveAll damping st.2 ns2
  (ns3, st.2 * (97 / 100))

/-- The simulation loop, run for the given number of iterations. -/
def simRun (R A damping : ℚ) (edges : List ForceEdge) :
    Nat → List ForceNode × ℚ → List ForceNode × ℚ
  | 0, st => st
  | k + 1, st => simRun R A damping edges k (simStep R A damping edges st)

/-- Bounding box over node centres ± radius (Go lines 236–251), starting
from the `±math.MaxFloat64` sentinels. Components are
`(minX, maxX, minY, maxY)`. -/
def boundsOf (ns : List ForceNode) : ℚ × ℚ × ℚ × ℚ :=
  ns.foldl
    (fun b n =>
      let b1 := if n.X - n.Radius < b.1 then n.X - n.Radius else b.1
      let b2 := if n.X + n.Radius > b.2.1 then n.X + n.Radius else b.2.1
      let b3 := if n.Y - n.Radius < b.2.2.1 then n.Y - n.Radius else b.2.2.1
      let b4 := if n.Y + n.Radius > b.2.2.2 then n.Y + n.Radius else b.2.2.2
      (b1, b2, b3, b4))
    (maxFloat64, -maxFloat64, maxFloat64, -maxFloat64)

/-- Insertion into a pagerank-sorted list, the auxiliary step of the final
sort. -/
def insertNode (n : ForceNode) : List ForceNode → List ForceNode
  | [] => [n]
  | m :: t =>
    if n.PageRank ≤ m.PageRank then n :: m :: t else m :: insertNode n t

/-- Final sort of the node list by ascending pagerank (Go lines 271–273:
`sort.Slice(nodes, ...)` with comparison `PageRank i < PageRank j`). Go's
slice sort is an unstable comparison sort; it is modelled by a structural
insertion sort, which produces a list sorted by the same key. -/
def sortNodes : List ForceNode → List ForceNode
  | [] => []
  | n :: t => insertNode n (sortNodes t)

/-- ComputeForceLayout (Go lines 61–291): the Fruchterman–Reingold layout.
The adjacency map of Go lines 154–158 is built but never read afterwards, so
it is omitted. -/
def ComputeForceLayout (opts : ForceLayoutOptions) : ForceLayout :=
  let o := setDefaults opts
  let pr := lookupQ opts.Stats.pageRank
  let bet := lookupQ opts.Stats.betweenness
  let m0 := maxVals opts.Stats.pageRank
  let maxPR := if m0 = 0 then 1 else m0
  let canvas := canvasSizeOf opts.Issues.length
  let nodes0 := mkNodes canvas o.MinNodeSize o.MaxNodeSize maxPR pr bet opts.Issues 42
  let top := topFold pr opts.Issues
  let edges := buildEdges opts.Issues
  let sim := simRun o.RepelForce o.AttractForce o.Damping edges
    o.Iterations.toNat (nodes0, canvas / 2)
  let b := boundsOf sim.1
  let minX := b.1 - 100
  let maxX := b.2.1 + 100
  let minY := b.2.2.1 - 100
  let maxY := b.2.2.2 + 100
  let width := maxX - minX
  let height := maxY - minY + 100
  let placed := sim.1.map (fun n => { n with X := n.X - minX, Y := n.Y - minY + 100 })
  { Nodes := sortNodes placed, Edges := edges,
    Width := width, Height := height,
    CenterX := width / 2, CenterY := height / 2,
    MinX := 0, MaxX := width, MinY := 0, MaxY := height,
    Title := opts.Title, DataHash := opts.DataHash,
    TopNode := top.1, TopNodeRank := top.2 }

/-- Concrete issue used by witnesses: owns a duplicated `Blocks` dependency
on `b`, a dangling dependency on `zz`, a nil dependency entry, and a
self-referential `Related` dependency. -/
def issueA : Issue :=
  { ID := "a", Title := "A", IStatus := .open_, Priority := 0,
    Dependencies := [some ⟨"b", .blocks⟩, some ⟨"b", .blocks⟩,
      some ⟨"zz", .blocks⟩, none, some ⟨"a", .related⟩] }

/-- Concrete issue used by witnesses: no dependencies. -/
def issueB : Issue :=
  { ID := "b", Title := "B", IStatus := .open_, Priority := 1,
    Dependencies := [] }

/-- Concrete centrality statistics for the two-issue snapshot. -/
def sampleStats : GraphStats :=
  ⟨[("a", 1 / 2), ("b", 1 / 4)], [("a", 1 / 10)]⟩

/-- Concrete options record for the two-issue snapshot, with every
configurable field left at zero (so every default applies). -/
def sampleOpts : ForceLayoutOptions :=
  { Issues := [issueA, issueB], Stats := sampleStats,
    Title := "sample", DataHash := "h",
    Iterations := 0, RepelForce := 0, AttractForce := 0, Damping := 0,
    MinNodeSize := 0, MaxNodeSize := 0 }

/-- Concrete options record with a negative iteration count. -/
def negOpts : ForceLayoutOptions :=
  { Issues := [], Stats := ⟨[], []⟩, Title := "neg", DataHash := "h",
    Iterations := -5, RepelForce := 0, AttractForce := 0, Damping := 0,
    MinNodeSize := 0, MaxNodeSize := 0 }

/-- Concrete options record for the empty snapshot, all options unset. -/
def emptyOpts : ForceLayoutOptions :=
  { Issues := [], Stats := ⟨[], []⟩, Title := "", DataHash := "",
    Iterations := 0, RepelForce := 0, AttractForce := 0, Damping := 0,
    MinNodeSize := 0, MaxNodeSize := 0 }

/-- Maximum pagerank taken over the snapshot's issues (the normalisation
constant as the specification words it: "the maximum PageRank over all
issues"). -/
def issuesMaxPR (opts : ForceLayoutOptions) : ℚ :=
  (opts.Issues.map (fun i => lookupQ opts.Stats.pageRank i.ID)).foldl
    (fun a v => if v > a then v else a) 0

/-- C1. `ComputeForceLayout` is deterministic: identical inputs (the fixed
seed is built into the embedding, as into the code) give identical layouts —
in particular bit-identical node coordinates, node order, edges and bounds. -/
theorem computeForceLayout_deterministic (o1 o2 : ForceLayoutOptions)
    (h : o1 = o2) : ComputeForceLayout o1 = ComputeForceLayout o2 := by
  rw [h]

/-- Witness for C1 at a concrete input. -/
theorem computeForceLayout_deterministic_witness :
    sampleOpts = sampleOpts ∧
      ComputeForceLayout sampleOpts = ComputeForceLayout sampleOpts :=
  ⟨rfl, computeForceLayout_deterministic sampleOpts sampleOpts rfl⟩

/-- C5. Defaulting of the six option fields: a zero/unset field is replaced
by its default (300 iterations, repulsion 8000, attraction 0.015 = 3/200,
damping 0.85 = 17/20, node radius range [24, 60]), a non-zero field is used
unchanged, each independently; the issue list and stats pass through. -/
theorem setDefaults_each_field (o : ForceLayoutOptions) :
    (setDefaults o).Iterations = (if o.Iterations = 0 then 300 else o.Iterations) ∧
    (setDefaults o).RepelForce = (if o.RepelForce = 0 then 8000 else o.RepelForce) ∧
    (setDefaults o).AttractForce = (if o.AttractForce = 0 then 3 / 200 else o.AttractForce) ∧
    (setDefaults o).Damping = (if o.Damping = 0 then 17 / 20 else o.Damping) ∧
    (setDefaults o).MinNodeSize = (if o.MinNodeSize = 0 then 24 else o.MinNodeSize) ∧
    (setDefaults o).MaxNodeSize = (if o.MaxNodeSize = 0 then 60 else o.MaxNodeSize) ∧
    (setDefaults o).Issues = o.Issues ∧ (setDefaults o).Stats = o.Stats :=
  ⟨rfl, rfl, rfl, rfl, rfl, rfl, rfl, rfl⟩

/-- C10. Bounds invariant and metadata passthrough of the returned layout:
`MinX = MinY = 0`, `MaxX = Width`, `MaxY = Height`, the centre is half the
canvas, and `Title`/`DataHash` are copied verbatim from the options. -/
theorem layout_bounds_and_metadata (opts : ForceLayoutOptions) :
    (ComputeForceLayout opts).MinX = 0 ∧
    (ComputeForceLayout opts).MinY = 0 ∧
    (ComputeForceLayout opts).MaxX = (ComputeForceLayout opts).Width ∧
    (ComputeForceLayout opts).MaxY = (ComputeForceLayout opts).Height ∧
    (ComputeForceLayout opts).CenterX = (ComputeForceLayout opts).Width / 2 ∧
    (ComputeForceLayout opts).CenterY = (ComputeForceLayout opts).Height / 2 ∧
    (ComputeForceLayout opts).Title = opts.Title ∧
    (ComputeForceLayout opts).DataHash = opts.DataHash :=
  ⟨rfl, rfl, rfl, rfl, rfl, rfl, rfl, rfl⟩

/-- C2 (counterexample): with `Iterations = -5` the call does not surface
any error — the Go function's return type has no error channel — and
returns an ordinary layout; the negative count survives defaulting. -/
theorem negative_iterations_no_error_counterexample :
    (ComputeForceLayout negOpts).Nodes = [] ∧
    (ComputeForceLayout negOpts).Edges = [] ∧
    (ComputeForceLayout negOpts).Title = "neg" ∧
    (ComputeForceLayout negOpts).DataHash = "h" ∧
    (setDefaults negOpts).Iterations = -5 :=
  ⟨rfl, rfl, rfl, rfl, rfl⟩

/-- C2 (amended). A negative `Iterations` is not coerced to the default —
only an exactly-zero value is replaced by 300 — and the simulation loop
(`for iter := 0; iter < opts.Iterations`) then executes zero iterations;
no configuration error is surfaced. -/
theorem negative_iterations_not_coerced (opts : ForceLayoutOptions)
    (h : opts.Iterations < 0) :
    (setDefaults opts).Iterations = opts.Iterations ∧
    (setDefaults opts).Iterations.toNat = 0 := by
  have h0 : ¬ opts.Iterations = 0 := by omega
  refine ⟨by simp [setDefaults, h0], ?_⟩
  simp only [setDefaults, h0, if_false]
  exact Int.toNat_of_nonpos (le_of_lt h)

/-- Witness for C2's amended theorem at a concrete input. -/
theorem negative_iterations_not_coerced_witness :
    negOpts.Iterations < 0 ∧
      ((setDefaults negOpts).Iterations = negOpts.Iterations ∧
        (setDefaults negOpts).Iterations.toNat = 0) :=
  ⟨by decide, negative_iterations_not_coerced negOpts (by decide)⟩

/-- Attraction on an empty node list does nothing. -/
theorem attractStep_nil (A : ℚ) (e : ForceEdge) : attractStep A [] e = [] := rfl

/-- Folding attraction over any edge list keeps the node list empty. -/
theorem foldl_attract_nil (A : ℚ) (es : List ForceEdge) :
    es.foldl (attractStep A) [] = [] := by
  induction es with
  | nil => rfl
  | cons e t ih => simpa [attractStep_nil] using ih

/-- One simulation step on an empty node list only cools the temperature. -/
theorem simStep_nil (R A d : ℚ) (es : List ForceEdge) (t : ℚ) :
    simStep R A d es ([], t) = ([], t * (97 / 100)) := by
  simp [simStep, repelAll, moveAll, foldl_attract_nil]

/-- The simulation loop keeps an empty node list empty. -/
theorem simRun_nil_fst (R A d : ℚ) (es : List ForceEdge) :
    ∀ (k : Nat) (t : ℚ), (simRun R A d es k ([], t)).1 = [] := by
  intro k
  induction k with
  | zero => intro t; rfl
  | succ n ih => intro t; rw [simRun, simStep_nil]; exact ih _

/-- Layout of a snapshot with no issues: the bounds fold never runs, so the
`±MaxFloat64` sentinels survive into the output dimensions. -/
theorem computeForceLayout_no_issues (opts : ForceLayoutOptions)
    (h : opts.Issues = []) :
    (ComputeForceLayout opts).Nodes = [] ∧
    (ComputeForceLayout opts).Edges = [] ∧
    (ComputeForceLayout opts).Width = 200 - 2 * maxFloat64 ∧
    (ComputeForceLayout opts).Height = 300 - 2 * maxFloat64 := by
  simp only [ComputeForceLayout, h]
  refine ⟨?_, ?_, ?_, ?_⟩
  · rw [mkNodes, simRun_nil_fst]; rfl
  · rfl
  · rw [mkNodes, simRun_nil_fst]; show (-maxFloat64 + 100) - (maxFloat64 - 100) = _; ring
  · rw [mkNodes, simRun_nil_fst]; show (-maxFloat64 + 100) - (maxFloat64 - 100) + 100 = _; ring

/-- C3. Evaluation at the empty snapshot: the node and edge lists are empty
as the claim states, but the canvas dimensions are not the 800-unit minimum
canvas — the bounds sentinels (`±math.MaxFloat64`) leak through, giving a
huge negative width and height (`-Inf` in float64 arithmetic). -/
theorem empty_snapshot_not_min_canvas :
    (ComputeForceLayout emptyOpts).Nodes = [] ∧
    (ComputeForceLayout emptyOpts).Edges = [] ∧
    (ComputeForceLayout emptyOpts).Width = 200 - 2 * maxFloat64 ∧
    (ComputeForceLayout emptyOpts).Height = 300 - 2 * maxFloat64 ∧
    (ComputeForceLayout emptyOpts).Width < 0 ∧
    ¬ (ComputeForceLayout emptyOpts).Width = 800 ∧
    ¬ (ComputeForceLayout emptyOpts).Height = 800 := by
  obtain ⟨h1, h2, h3, h4⟩ := computeForceLayout_no_issues emptyOpts rfl
  refine ⟨h1, h2, h3, h4, ?_, ?_, ?_⟩
  · rw [h3]; norm_num [maxFloat64]
  · rw [h3]; norm_num [maxFloat64]
  · rw [h4]; norm_num [maxFloat64]

/-- C4 (counterexample): `issueA` carries the dependency `(a, b, Blocks)`
twice; both occurrences survive into the simulated edge list, so the edge
set is not deduplicated and the attraction force for that pair is applied
twice per iteration. -/
theorem duplicate_edges_retained_counterexample :
    (ComputeForceLayout sampleOpts).Edges =
      [⟨"a", "b", .blocks⟩, ⟨"a", "b", .blocks⟩, ⟨"a", "a", .related⟩] ∧
    ¬ (ComputeForceLayout sampleOpts).Edges.Nodup := by
  have h : (ComputeForceLayout sampleOpts).Edges =
      ([⟨"a", "b", .blocks⟩, ⟨"a", "b", .blocks⟩,
        ⟨"a", "a", .related⟩] : List ForceEdge) := by decide
  refine ⟨h, ?_⟩
  rw [h]
  decide

/-- Per-issue edge count: one edge per non-nil dependency whose target
exists, duplicates included. -/
theorem filterMap_edge_length (ids : List String) (iid : String)
    (deps : List (Option Dependency)) :
    (deps.filterMap (depEdge ids iid)).length
      = ((deps.filterMap id).filter
          (fun dep => decide (dep.DependsOnID ∈ ids))).length := by
  induction deps with
  | nil => rfl
  | cons d t ih =>
    cases d with
    | none => simpa [depEdge] using ih
    | some dep =>
      by_cases hmem : dep.DependsOnID ∈ ids
      · simp [List.filterMap_cons, depEdge, hmem, ih]
      · simp [List.filterMap_cons, depEdge, hmem, ih]

/-- C4 (amended). The edge list fed to the simulation is exactly the list of
dependency occurrences with an existing target, one edge per occurrence:
duplicate `(owner, target, kind)` triples are retained, not deduplicated,
and each retained occurrence is evaluated by the attraction phase. -/
theorem edges_one_per_occurrence (opts : ForceLayoutOptions) :
    (ComputeForceLayout opts).Edges = buildEdges opts.Issues ∧
    (ComputeForceLayout opts).Edges.length =
      (opts.Issues.map (fun iss =>
        ((iss.Dependencies.filterMap id).filter
          (fun dep =>
            decide (dep.DependsOnID ∈ opts.Issues.map Issue.ID))).length)).sum := by
  refine ⟨rfl, ?_⟩
  show (buildEdges opts.Issues).length = _
  rw [buildEdges, List.length_flatMap]
  congr 1
  exact List.map_congr_left (fun iss _ => filterMap_edge_length _ iss.ID _)

/-- Membership in an insertion is membership in the inserted element or the
original list. -/
theorem mem_insertNode {a n : ForceNode} {l : List ForceNode} :
    a ∈ insertNode n l ↔ a = n ∨ a ∈ l := by
  induction l with
  | nil => simp [insertNode]
  | cons m t ih =>
    rw [insertNode]
    by_cases hle : n.PageRank ≤ m.PageRank
    · rw [if_pos hle]
      simp [List.mem_cons]
    · rw [if_neg hle]
      simp only [List.mem_cons, ih]
      tauto

/-- Inserting into a pagerank-sorted list keeps it sorted. -/
theorem pairwise_insertNode (n : ForceNode) (l : List ForceNode)
    (h : l.Pairwise (fun a b => a.PageRank ≤ b.PageRank)) :
    (insertNode n l).Pairwise (fun a b => a.PageRank ≤ b.PageRank) := by
  induction l with
  | nil => simp [insertNode]
  | cons m t ih =>
    rw [insertNode]
    rcases List.pairwise_cons.1 h with ⟨hm, ht⟩
    by_cases hle : n.PageRank ≤ m.PageRank
    · rw [if_pos hle]
      refine List.pairwise_cons.2 ⟨?_, h⟩
      intro b hb
      rcases List.mem_cons.1 hb with rfl | hb'
      · exact hle
      · exact le_trans hle (hm b hb')
    · rw [if_neg hle]
      refine List.pairwise_cons.2 ⟨?_, ih ht⟩
      intro b hb
      rcases mem_insertNode.1 hb with rfl | hb'
      · exact le_of_not_le hle
      · exact hm b hb'

/-- The final sort produces a list sorted by ascending pagerank. -/
theorem pairwise_sortNodes (l : List ForceNode) :
    (sortNodes l).Pairwise (fun a b => a.PageRank ≤ b.PageRank) := by
  induction l with
  | nil => exact List.Pairwise.nil
  | cons n t ih => rw [sortNodes]; exact pairwise_insertNode n _ ih

/-- The final sort neither adds nor removes nodes. -/
theorem mem_sortNodes {a : ForceNode} {l : List ForceNode} :
    a ∈ sortNodes l ↔ a ∈ l := by
  induction l with
  | nil => simp [sortNodes]
  | cons n t ih => rw [sortNodes, mem_insertNode, ih, List.mem_cons]

/-- C6. The `Nodes` list of every returned layout is sorted by ascending
`PageRank`, so a consumer drawing the list in order paints higher-ranked
nodes later (on top). -/
theorem nodes_sorted_by_pagerank (opts : ForceLayoutOptions) :
    (ComputeForceLayout opts).Nodes.Pairwise
      (fun a b => a.PageRank ≤ b.PageRank) := by
  simp only [ComputeForceLayout]
  exact pairwise_sortNodes _

/-- A pointwise update by a function that fixes every element is the
identity. -/
theorem modifyIdx_id (f : ForceNode → ForceNode) (hf : ∀ x, f x = x) :
    ∀ (ns : List ForceNode) (i : Nat), modifyIdx ns i f = ns
  | [], _ => rfl
  | n :: t, 0 => by rw [modifyIdx, hf]
  | n :: t, k + 1 => by rw [modifyIdx, modifyIdx_id f hf t k]

/-- The square-root model is exact at zero. -/
theorem ratSqrt_zero : ratSqrt 0 = 0 := rfl

/-- Attraction along a self-referential edge leaves every node unchanged:
both endpoint lookups give the same node, the separation is zero, the
clamped distance is 1, and the applied force components are `0 / 1 * force
= 0`. -/
theorem attractStep_self (A : ℚ) (ns : List ForceNode) (e : ForceEdge)
    (h : e.From = e.To) : attractStep A ns e = ns := by
  unfold attractStep
  rw [h]
  cases hidx : lastIdxOf ns e.To with
  | none => rfl
  | some i =>
    cases hget : ns[i]? with
    | none => simp [hget]
    | some n1 =>
      simp only [hget]
      simp only [sub_self, mul_zero, zero_mul, add_zero, zero_add,
        ratSqrt_zero, zero_lt_one, if_true, zero_div, sub_zero]
      rw [modifyIdx_id _ (fun x => rfl), modifyIdx_id _ (fun x => rfl)]

/-- Removing a self-referential edge from the attraction fold does not
change the result. -/
theorem foldl_attract_self (A : ℚ) (e : ForceEdge) (h : e.From = e.To)
    (l1 l2 : List ForceEdge) (ns : List ForceNode) :
    (l1 ++ e :: l2).foldl (attractStep A) ns =
      (l1 ++ l2).foldl (attractStep A) ns := by
  rw [List.foldl_append, List.foldl_append, List.foldl_cons,
    attractStep_self A _ e h]

/-- One simulation step ignores self-referential edges (repulsion skips
identical indices by construction and does not read edges at all). -/
theorem simStep_self (R A d : ℚ) (e : ForceEdge) (h : e.From = e.To)
    (l1 l2 : List ForceEdge) (st : List ForceNode × ℚ) :
    simStep R A d (l1 ++ e :: l2) st = simStep R A d (l1 ++ l2) st := by
  simp only [simStep]
  rw [foldl_attract_self A e h]

/-- The whole simulation ignores self-referential edges. -/
theorem simRun_self (R A d : ℚ) (e : ForceEdge) (h : e.From = e.To)
    (l1 l2 : List ForceEdge) :
    ∀ (k : Nat) (st : List ForceNode × ℚ),
      simRun R A d (l1 ++ e :: l2) k st = simRun R A d (l1 ++ l2) k st := by
  intro k
  induction k with
  | zero => intro st; rfl
  | succ n ih =>
    intro st
    rw [simRun, simRun, simStep_self R A d e h]
    exact ih _

/-- Every simulated edge's target is an issue of the snapshot: dangling
dependencies are filtered out by `buildEdges`. -/
theorem buildEdges_target_mem (issues : List Issue) (e : ForceEdge)
    (he : e ∈ buildEdges issues) : e.To ∈ issues.map Issue.ID := by
  simp only [buildEdges] at he
  rcases List.mem_flatMap.1 he with ⟨iss, _, hmem⟩
  rcases List.mem_filterMap.1 hmem with ⟨d, _, heq⟩
  cases d with
  | none => simp [depEdge] at heq
  | some dep =>
    rw [depEdge] at heq
    by_cases hin : dep.DependsOnID ∈ issues.map Issue.ID
    · rw [if_pos hin] at heq
      injection heq with h2
      subst h2
      exact hin
    · rw [if_neg hin] at heq
      exact absurd heq (by simp)

/-- C7. Self-referential edges contribute zero force to the simulation —
running any number of iterations with a self-edge inserted anywhere in the
edge list gives exactly the same state as without it (which also covers
repulsion, whose all-pairs loop skips identical indices) — and every edge
that reaches the simulation has its target present in the snapshot, so
dangling dependencies are excluded entirely. -/
theorem selfLoop_zero_force_dangling_excluded :
    (∀ (A : ℚ) (ns : List ForceNode) (e : ForceEdge),
      e.From = e.To → attractStep A ns e = ns) ∧
    (∀ (R A d : ℚ) (e : ForceEdge) (l1 l2 : List ForceEdge) (k : Nat)
      (st : List ForceNode × ℚ), e.From = e.To →
      simRun R A d (l1 ++ e :: l2) k st = simRun R A d (l1 ++ l2) k st) ∧
    (∀ (issues : List Issue) (e : ForceEdge),
      e ∈ buildEdges issues → e.To ∈ issues.map Issue.ID) :=
  ⟨fun A ns e h => attractStep_self A ns e h,
   fun R A d e l1 l2 k st h => simRun_self R A d e h l1 l2 k st,
   fun issues e he => buildEdges_target_mem issues e he⟩

/-- Witness for C7 at concrete inputs: a self-edge on `a` is inert for one
iteration of the simulation, and the dangling dependency of `issueA` on
`zz` produces no edge while its `b` edge targets a present issue. -/
theorem selfLoop_zero_force_dangling_excluded_witness :
    ((⟨"a", "a", .related⟩ : ForceEdge).From = "a" ∧
      simRun 8000 (3 / 200) (17 / 20) [⟨"a", "a", .related⟩] 1 ([], 400) =
        simRun 8000 (3 / 200) (17 / 20) [] 1 ([], 400)) ∧
    ((⟨"a", "b", .blocks⟩ : ForceEdge) ∈ buildEdges [issueA, issueB] ∧
      ("b" : String) ∈ [issueA, issueB].map Issue.ID) :=
  ⟨⟨rfl, selfLoop_zero_force_dangling_excluded.2.1 8000 (3 / 200) (17 / 20)
      ⟨"a", "a", .related⟩ [] [] 1 ([], 400) rfl⟩,
   ⟨by decide, selfLoop_zero_force_dangling_excluded.2.2 [issueA, issueB]
      ⟨"a", "b", .blocks⟩ (by decide)⟩⟩

/-- A member of a pointwise-updated list is an original member or the image
of one. -/
theorem mem_modifyIdx {n' : ForceNode} {f : ForceNode → ForceNode} :
    ∀ {ns : List ForceNode} {i : Nat},
      n' ∈ modifyIdx ns i f → n' ∈ ns ∨ ∃ n ∈ ns, n' = f n := by
  intro ns
  induction ns with
  | nil => intro i h; rw [modifyIdx] at h; exact Or.inl h
  | cons m t ih =>
    intro i h
    cases i with
    | zero =>
      rw [modifyIdx] at h
      rcases List.mem_cons.1 h with rfl | h'
      · exact Or.inr ⟨m, List.mem_cons_self _ _, rfl⟩
      · exact Or.inl (List.mem_cons_of_mem _ h')
    | succ k =>
      rw [modifyIdx] at h
      rcases List.mem_cons.1 h with rfl | h'
      · exact Or.inl (List.mem_cons_self _ _)
      · rcases ih h' with h'' | ⟨n, hn, rfl⟩
        · exact Or.inl (List.mem_cons_of_mem _ h'')
        · exact Or.inr ⟨n, List.mem_cons_of_mem _ hn, rfl⟩

/-- The repulsion phase only rewrites velocities: every output node keeps
the identifier and radius of an input node. -/
theorem mem_repelAll {R : ℚ} {ns : List ForceNode} {n' : ForceNode}
    (h : n' ∈ repelAll R ns) :
    ∃ n ∈ ns, n'.ID = n.ID ∧ n'.Radius = n.Radius := by
  rcases List.mem_map.1 h with ⟨p, hp, rfl⟩
  exact ⟨p.2, List.getElem?_mem (List.mem_enum_iff_getElem?.1 hp), rfl, rfl⟩

/-- One attraction application only rewrites velocities. -/
theorem mem_attractStep {A : ℚ} {ns : List ForceNode} {e : ForceEdge}
    {n' : ForceNode} (h : n' ∈ attractStep A ns e) :
    ∃ n ∈ ns, n'.ID = n.ID ∧ n'.Radius = n.Radius := by
  cases h1 : lastIdxOf ns e.From with
  | none =>
    simp only [attractStep, h1] at h
    exact ⟨n', h, rfl, rfl⟩
  | some i =>
    cases h2 : lastIdxOf ns e.To with
    | none =>
      simp only [attractStep, h1, h2] at h
      exact ⟨n', h, rfl, rfl⟩
    | some j =>
      cases h3 : ns[i]? with
      | none =>
        simp only [attractStep, h1, h2, h3] at h
        exact ⟨n', h, rfl, rfl⟩
      | some n1 =>
        cases h4 : ns[j]? with
        | none =>
          simp only [attractStep, h1, h2, h3, h4] at h
          exact ⟨n', h, rfl, rfl⟩
        | some n2 =>
          simp only [attractStep, h1, h2, h3, h4] at h
          rcases mem_modifyIdx h with h' | ⟨n, hn, rfl⟩
          · rcases mem_modifyIdx h' with h'' | ⟨n, hn, rfl⟩
            · exact ⟨n', h'', rfl, rfl⟩
            · exact ⟨n, hn, rfl, rfl⟩
          · rcases mem_modifyIdx hn with h'' | ⟨m, hm, rfl⟩
            · exact ⟨n, h'', rfl, rfl⟩
            · exact ⟨m, hm, rfl, rfl⟩

/-- The attraction fold only rewrites velocities. -/
theorem mem_foldl_attract {A : ℚ} :
    ∀ (es : List ForceEdge) {ns : List ForceNode} {n' : ForceNode},
      n' ∈ es.foldl (attractStep A) ns →
      ∃ n ∈ ns, n'.ID = n.ID ∧ n'.Radius = n.Radius := by
  intro es
  induction es with
  | nil => intro ns n' h; exact ⟨n', h, rfl, rfl⟩
  | cons e t ih =>
    intro ns n' h
    rw [List.foldl_cons] at h
    rcases ih h with ⟨m, hm, hid, hrad⟩
    rcases mem_attractStep hm with ⟨n, hn, hid2, hrad2⟩
    exact ⟨n, hn, hid.trans hid2, hrad.trans hrad2⟩

/-- The movement phase only rewrites positions and velocities. -/
theorem mem_moveAll {d t : ℚ} {ns : List ForceNode} {n' : ForceNode}
    (h : n' ∈ moveAll d t ns) :
    ∃ n ∈ ns, n'.ID = n.ID ∧ n'.Radius = n.Radius := by
  rcases List.mem_map.1 h with ⟨m, hm, rfl⟩
  exact ⟨m, hm, rfl, rfl⟩

/-- One simulation step preserves every node's identifier and radius. -/
theorem mem_simStep_fst {R A d : ℚ} {es : List ForceEdge}
    {st : List ForceNode × ℚ} {n' : ForceNode}
    (h : n' ∈ (simStep R A d es st).1) :
    ∃ n ∈ st.1, n'.ID = n.ID ∧ n'.Radius = n.Radius := by
  simp only [simStep] at h
  rcases mem_moveAll h with ⟨m, hm, hid, hrad⟩
  rcases mem_foldl_attract es hm with ⟨m2, hm2, hid2, hrad2⟩
  rcases mem_repelAll hm2 with ⟨n, hn, hid3, hrad3⟩
  exact ⟨n, hn, (hid.trans hid2).trans hid3, (hrad.trans hrad2).trans hrad3⟩

/-- The whole simulation preserves every node's identifier and radius. -/
theorem mem_simRun_fst {R A d : ℚ} {es : List ForceEdge} :
    ∀ (k : Nat) {st : List ForceNode × ℚ} {n' : ForceNode},
      n' ∈ (simRun R A d es k st).1 →
      ∃ n ∈ st.1, n'.ID = n.ID ∧ n'.Radius = n.Radius := by
  intro k
  induction k with
  | zero => intro st n' h; exact ⟨n', h, rfl, rfl⟩
  | succ m ih =>
    intro st n' h
    rw [simRun] at h
    rcases ih h with ⟨n2, hn2, hid, hrad⟩
    rcases mem_simStep_fst hn2 with ⟨n, hn, hid2, hrad2⟩
    exact ⟨n, hn, hid.trans hid2, hrad.trans hrad2⟩

/-- Every node of the finished pipeline (simulate, translate, sort) keeps
the identifier and radius of one of the freshly constructed nodes. -/
theorem core_of_mem_pipeline (R A d : ℚ) (es : List ForceEdge) (k : Nat)
    (ns0 : List ForceNode) (t0 mX mY : ℚ) (n : ForceNode)
    (hn : n ∈ sortNodes (((simRun R A d es k (ns0, t0)).1).map
      (fun m => { m with X := m.X - mX, Y := m.Y - mY + 100 }))) :
    ∃ n0 ∈ ns0, n.ID = n0.ID ∧ n.Radius = n0.Radius := by
  rcases List.mem_map.1 (mem_sortNodes.1 hn) with ⟨m, hm, rfl⟩
  rcases mem_simRun_fst k hm with ⟨n0, hn0, hid, hrad⟩
  exact ⟨n0, hn0, hid, hrad⟩

/-- Radius of every freshly constructed node, in terms of its own
identifier. -/
theorem mkNodes_radius (canvas minS maxS maxPR : ℚ) (pr bet : String → ℚ) :
    ∀ (issues : List Issue) (s : Nat) (m : ForceNode),
      m ∈ mkNodes canvas minS maxS maxPR pr bet issues s →
      m.Radius = minS +
        (pr m.ID / maxPR * (7 / 10) + bet m.ID * (3 / 10)) * (maxS - minS) := by
  intro issues
  induction issues with
  | nil => intro s m hm; rw [mkNodes] at hm; exact absurd hm (List.not_mem_nil m)
  | cons iss rest ih =>
    intro s m hm
    rw [mkNodes] at hm
    rcases List.mem_cons.1 hm with rfl | hm'
    · rfl
    · exact ih _ m hm'

/-- C8. Every node's radius is `MinNodeSize + importance * (MaxNodeSize -
MinNodeSize)` with `importance = 0.7 * normalizedPageRank + 0.3 *
betweenness`, the pagerank normalised by the maximum pagerank over all
issues (taken as 1 when that maximum is zero); and the canvas side length is
`max(800, sqrt(N) * 200)`. The hypothesis records that the stats map ranges
over exactly the snapshot's issues, so its maximum is the maximum over the
issues (true of every `CentralityResult` per spec §3). -/
theorem node_radius_formula (opts : ForceLayoutOptions)
    (h : maxVals opts.Stats.pageRank = issuesMaxPR opts) :
    (∀ n ∈ (ComputeForceLayout opts).Nodes,
      n.Radius = (setDefaults opts).MinNodeSize +
        ((7 / 10) * (lookupQ opts.Stats.pageRank n.ID /
            (if issuesMaxPR opts = 0 then 1 else issuesMaxPR opts)) +
          (3 / 10) * lookupQ opts.Stats.betweenness n.ID) *
        ((setDefaults opts).MaxNodeSize - (setDefaults opts).MinNodeSize)) ∧
    canvasSizeOf opts.Issues.length =
      max 800 (ratSqrt (opts.Issues.length : ℚ) * 200) := by
  constructor
  · intro n hn
    simp only [ComputeForceLayout] at hn
    obtain ⟨n0, hn0, hid, hrad⟩ :=
      core_of_mem_pipeline _ _ _ _ _ _ _ _ _ n hn
    rw [hrad, hid]
    rw [mkNodes_radius _ _ _ _ _ _ _ _ _ hn0, h]
    ring
  · rfl

/-- Witness for C8 at a concrete input. -/
theorem node_radius_formula_witness :
    maxVals sampleOpts.Stats.pageRank = issuesMaxPR sampleOpts ∧
    ((∀ n ∈ (ComputeForceLayout sampleOpts).Nodes,
      n.Radius = (setDefaults sampleOpts).MinNodeSize +
        ((7 / 10) * (lookupQ sampleOpts.Stats.pageRank n.ID /
            (if issuesMaxPR sampleOpts = 0 then 1 else issuesMaxPR sampleOpts)) +
          (3 / 10) * lookupQ sampleOpts.Stats.betweenness n.ID) *
        ((setDefaults sampleOpts).MaxNodeSize -
          (setDefaults sampleOpts).MinNodeSize)) ∧
    canvasSizeOf sampleOpts.Issues.length =
      max 800 (ratSqrt (sampleOpts.Issues.length : ℚ) * 200)) :=
  ⟨by simp [maxVals, issuesMaxPR, sampleOpts, sampleStats, issueA, issueB, lookupQ],
   node_radius_formula sampleOpts
     (by simp [maxVals, issuesMaxPR, sampleOpts, sampleStats, issueA, issueB, lookupQ])⟩

/-- The rank component of the top-node fold is the running maximum of the
ranks (with the given starting value). -/
theorem topFold_go_rank (pr : String → ℚ) :
    ∀ (l : List Issue) (t0 : String) (r0 : ℚ),
      (l.foldl (fun acc iss =>
        if pr iss.ID > acc.2 then (iss.ID, pr iss.ID) else acc) (t0, r0)).2
        = l.foldl (fun a iss => if pr iss.ID > a then pr iss.ID else a) r0 := by
  intro l
  induction l with
  | nil => intro t0 r0; rfl
  | cons i rest ih =>
    intro t0 r0
    simp only [List.foldl_cons]
    by_cases h : pr i.ID > r0
    · rw [if_pos h, if_pos h]
      exact ih _ _
    · rw [if_neg h, if_neg h]
      exact ih _ _

/-- The running-maximum fold is monotone in its start value and bounds every
element. -/
theorem rankFold_bounds (pr : String → ℚ) :
    ∀ (l : List Issue) (r0 : ℚ),
      r0 ≤ l.foldl (fun a iss => if pr iss.ID > a then pr iss.ID else a) r0 ∧
      ∀ i ∈ l, pr i.ID ≤
        l.foldl (fun a iss => if pr iss.ID > a then pr iss.ID else a) r0 := by
  intro l
  induction l with
  | nil => intro r0; exact ⟨le_refl r0, by intro i h; exact absurd h (List.not_mem_nil i)⟩
  | cons i rest ih =>
    intro r0
    simp only [List.foldl_cons]
    by_cases h : pr i.ID > r0
    · rw [if_pos h]
      refine ⟨le_trans (le_of_lt h) (ih (pr i.ID)).1, ?_⟩
      intro j hj
      rcases List.mem_cons.1 hj with rfl | hj'
      · exact (ih (pr j.ID)).1
      · exact (ih (pr i.ID)).2 j hj'
    · rw [if_neg h]
      refine ⟨(ih r0).1, ?_⟩
      intro j hj
      rcases List.mem_cons.1 hj with rfl | hj'
      · exact le_trans (le_of_not_lt h) (ih r0).1
      · exact (ih r0).2 j hj'

/-- When no rank exceeds the start value, the top-node fold is the identity
on its accumulator. -/
theorem topFold_go_const (pr : String → ℚ) :
    ∀ (l : List Issue) (t0 : String) (r0 : ℚ),
      (∀ i ∈ l, pr i.ID ≤ r0) →
      l.foldl (fun acc iss =>
        if pr iss.ID > acc.2 then (iss.ID, pr iss.ID) else acc) (t0, r0)
        = (t0, r0) := by
  intro l
  induction l with
  | nil => intro t0 r0 _; rfl
  | cons i rest ih =>
    intro t0 r0 hle
    simp only [List.foldl_cons]
    rw [if_neg (not_lt.2 (hle i (List.mem_cons_self _ _)))]
    exact ih t0 r0 (fun j hj => hle j (List.mem_cons_of_mem _ hj))

/-- When some rank exceeds the start value, the top-node fold returns the
first issue attaining the overall maximum: the issue list splits around that
issue, every earlier issue ranks strictly below it, and its rank is the
fold's rank component. -/
theorem topFold_go_argmax (pr : String → ℚ) :
    ∀ (l : List Issue) (t0 : String) (r0 : ℚ),
      (∃ i ∈ l, pr i.ID > r0) →
      ∃ pre x post, l = pre ++ x :: post ∧
        (l.foldl (fun acc iss =>
          if pr iss.ID > acc.2 then (iss.ID, pr iss.ID) else acc) (t0, r0)).1
          = x.ID ∧
        pr x.ID =
          (l.foldl (fun acc iss =>
            if pr iss.ID > acc.2 then (iss.ID, pr iss.ID) else acc) (t0, r0)).2 ∧
        (∀ y ∈ pre, pr y.ID < pr x.ID) := by
  intro l
  induction l with
  | nil =>
    intro t0 r0 h
    rcases h with ⟨i, hi, _⟩
    exact absurd hi (List.not_mem_nil i)
  | cons i rest ih =>
    intro t0 r0 hex
    simp only [List.foldl_cons]
    by_cases h : pr i.ID > r0
    · rw [if_pos h]
      by_cases h2 : ∃ j ∈ rest, pr j.ID > pr i.ID
      · rcases ih i.ID (pr i.ID) h2 with ⟨pre, x, post, hsplit, hfst, hsnd, hpre⟩
        refine ⟨i :: pre, x, post, by rw [hsplit, List.cons_append], hfst, hsnd, ?_⟩
        intro y hy
        rcases List.mem_cons.1 hy with rfl | hy'
        · rcases h2 with ⟨j, hj, hgt⟩
          have hle : pr j.ID ≤ pr x.ID := by
            rw [hsnd, topFold_go_rank]
            exact (rankFold_bounds pr rest (pr y.ID)).2 j hj
          exact lt_of_lt_of_le hgt hle
        · exact hpre y hy'
      · push_neg at h2
        refine ⟨[], i, rest, rfl, ?_, ?_, ?_⟩
        · rw [topFold_go_const pr rest i.ID (pr i.ID) (fun j hj => h2 j hj)]
        · rw [topFold_go_const pr rest i.ID (pr i.ID) (fun j hj => h2 j hj)]
        · intro y hy
          exact absurd hy (List.not_mem_nil y)
    · rw [if_neg h]
      have hex' : ∃ j ∈ rest, pr j.ID > r0 := by
        rcases hex with ⟨j, hj, hgt⟩
        rcases List.mem_cons.1 hj with rfl | hj'
        · exact absurd hgt h
        · exact ⟨j, hj', hgt⟩
      rcases ih t0 r0 hex' with ⟨pre, x, post, hsplit, hfst, hsnd, hpre⟩
      refine ⟨i :: pre, x, post, by rw [hsplit, List.cons_append], hfst, hsnd, ?_⟩
      intro y hy
      rcases List.mem_cons.1 hy with rfl | hy'
      · have hr0 : r0 < pr x.ID := by
          rcases hex' with ⟨j, hj, hgt⟩
          have hle : pr j.ID ≤ pr x.ID := by
            rw [hsnd, topFold_go_rank]
            exact (rankFold_bounds pr rest r0).2 j hj
          exact lt_of_lt_of_le hgt hle
        exact lt_of_le_of_lt (le_of_not_lt h) hr0
      · exact hpre y hy'

/-- C9. `TopNodeRank` is the running maximum (from 0) of the issues' ranks;
`TopNode` is the empty string when there are no issues or every rank is
zero; and when some rank is positive, `TopNode` names the first issue in
input order attaining the maximal pagerank, with `TopNodeRank` equal to its
score, every earlier issue ranking strictly below it and no issue ranking
above it. -/
theorem topNode_first_max (opts : ForceLayoutOptions) :
    ((ComputeForceLayout opts).TopNodeRank =
      opts.Issues.foldl
        (fun a iss => if lookupQ opts.Stats.pageRank iss.ID > a
          then lookupQ opts.Stats.pageRank iss.ID else a) 0) ∧
    ((opts.Issues = [] ∨
        ∀ i ∈ opts.Issues, lookupQ opts.Stats.pageRank i.ID = 0) →
      (ComputeForceLayout opts).TopNode = "") ∧
    ((∃ i ∈ opts.Issues, lookupQ opts.Stats.pageRank i.ID > 0) →
      ∃ pre x post, opts.Issues = pre ++ x :: post ∧
        (ComputeForceLayout opts).TopNode = x.ID ∧
        lookupQ opts.Stats.pageRank x.ID =
          (ComputeForceLayout opts).TopNodeRank ∧
        (∀ y ∈ pre, lookupQ opts.Stats.pageRank y.ID <
          lookupQ opts.Stats.pageRank x.ID) ∧
        (∀ y ∈ opts.Issues, lookupQ opts.Stats.pageRank y.ID ≤
          lookupQ opts.Stats.pageRank x.ID)) := by
  have hT : (ComputeForceLayout opts).TopNode =
      (topFold (lookupQ opts.Stats.pageRank) opts.Issues).1 := rfl
  have hR : (ComputeForceLayout opts).TopNodeRank =
      (topFold (lookupQ opts.Stats.pageRank) opts.Issues).2 := rfl
  refine ⟨?_, ?_, ?_⟩
  · rw [hR, topFold]
    exact topFold_go_rank _ _ _ _
  · intro hzero
    rw [hT, topFold]
    rcases hzero with hnil | hall
    · rw [hnil]; rfl
    · rw [topFold_go_const _ _ _ _ (fun i hi => le_of_eq (hall i hi))]
  · intro hex
    rw [hT, hR, topFold]
    rcases topFold_go_argmax (lookupQ opts.Stats.pageRank) opts.Issues "" 0 hex
      with ⟨pre, x, post, hsplit, hfst, hsnd, hpre⟩
    refine ⟨pre, x, post, hsplit, hfst, hsnd, hpre, ?_⟩
    intro y hy
    have hb : lookupQ opts.Stats.pageRank y.ID ≤
        (opts.Issues.foldl (fun acc iss =>
          if lookupQ opts.Stats.pageRank iss.ID > acc.2
          then (iss.ID, lookupQ opts.Stats.pageRank iss.ID) else acc) ("", 0)).2 := by
      rw [topFold_go_rank]
      exact (rankFold_bounds _ _ 0).2 y hy
    exact le_trans hb (le_of_eq hsnd.symm)

/-- Witness for C9 at a concrete input. -/
theorem topNode_first_max_witness :
    (∃ i ∈ sampleOpts.Issues, lookupQ sampleOpts.Stats.pageRank i.ID > 0) ∧
    (∃ pre x post, sampleOpts.Issues = pre ++ x :: post ∧
      (ComputeForceLayout sampleOpts).TopNode = x.ID ∧
      lookupQ sampleOpts.Stats.pageRank x.ID =
        (ComputeForceLayout sampleOpts).TopNodeRank ∧
      (∀ y ∈ pre, lookupQ sampleOpts.Stats.pageRank y.ID <
        lookupQ sampleOpts.Stats.pageRank x.ID) ∧
      (∀ y ∈ sampleOpts.Issues, lookupQ sampleOpts.Stats.pageRank y.ID ≤
        lookupQ sampleOpts.Stats.pageRank x.ID)) :=
  have hex : ∃ i ∈ sampleOpts.Issues, lookupQ sampleOpts.Stats.pageRank i.ID > 0 :=
    ⟨issueA, by simp [sampleOpts],
      by norm_num [lookupQ, sampleOpts, sampleStats, issueA]⟩
  ⟨hex, (topNode_first_max sampleOpts).2.2 hex⟩
